import Mathlib

/-!
Shallow embedding of generate-pages.py, a static PyPI-style index generator.

Python strings (file names, URLs, filesystem paths, HTML lines) are modelled
as lists of characters.  The file system is modelled as the list of paths at
which a file currently exists; network downloads are modelled by an oracle
mapping a URL to an outcome.  Each definition keeps the name of the Python
function it embeds where Lean allows it.
-/

/-- Python strings are modelled as lists of characters. -/
abbrev Str : Type := List Char

/-- Convert a Lean string literal to the model type. -/
def strOf (s : String) : Str := s.toList

/-- The module-level constant DOCS_DIR = 'docs'. -/
def DOCS_DIR : Str := strOf "docs"

/-- Python's s.split(sep) for a one-character separator: splits on every
occurrence of the separator, always returning a nonempty list of fields
(the empty string splits to a single empty field, as in CPython). -/
def pySplit (sep : Char) : Str → List Str
  | [] => [[]]
  | c :: rest =>
    if c = sep then [] :: pySplit sep rest
    else
      match pySplit sep rest with
      | [] => [[c]]
      | f :: r => (c :: f) :: r

/-- Python's s.replace(a, b) for one-character pattern and replacement:
replaces every occurrence of the character a by b. -/
def pyReplace1 (a b : Char) (s : Str) : Str :=
  s.map (fun c => if c = a then b else c)

/-- Python's s.lower() restricted to ASCII input, which is what the release
asset names consist of: the core toLower shifts A..Z to a..z and leaves
every other character unchanged, exactly as CPython does on ASCII. -/
def pyLower (s : Str) : Str := s.map Char.toLower

/-- Embeds wheel_info[0].split(\x22-\x22)[0] followed by .replace and .lower
(generate-pages.py lines 86-87).  Indexing split(...)[0] never raises
IndexError because pySplit always returns a nonempty list. -/
def normalizePackageName (fileName : Str) : Str :=
  pyLower (pyReplace1 '_' '-' ((pySplit '-' fileName).headD []))

/-- Modelled from the spec words for PackageName: the substring before the
first separator, with underscores replaced by hyphens, lower-cased.  Used
only to compare the spec's description with the source's computation. -/
def specPackageName (fileName : Str) : Str :=
  pyLower (pyReplace1 '_' '-' (fileName.takeWhile (fun c => c ≠ '-')))

/-- One release asset as listed: a (file name, download URL) pair. -/
structure Artifact where
  fileName : Str
  sourceUrl : Str
deriving DecidableEq, Repr

/-- Appending one artifact to the group keyed by k, creating the group at
the end on first sight: the model of res[package_name].append(wheel_info)
on an insertion-ordered Python defaultdict. -/
def insertGroup (d : List (Str × List Artifact)) (k : Str) (w : Artifact) :
    List (Str × List Artifact) :=
  match d with
  | [] => [(k, [w])]
  | (k0, ws) :: rest =>
    if k0 = k then (k0, ws ++ [w]) :: rest
    else (k0, ws) :: insertGroup rest k w

/-- Embeds get_packages_dict (lines 82-92): group the wheel list by the
normalized package name, preserving dict insertion order. -/
def get_packages_dict (infos : List Artifact) : List (Str × List Artifact) :=
  infos.foldl (fun d w => insertGroup d (normalizePackageName w.fileName) w) []

/-- The platform tag that marks a wheel for relabeling (line 140). -/
def linuxTag : Str := strOf "linux_aarch64"

/-- The replacement platform tag (line 142). -/
def androidTag : Str := strOf "android_24_aarch64"

/-- The package-name substring that marks a wheel for local hosting (line 140). -/
def pydanticStr : Str := strOf "pydantic"

/-- The digest marker looked for in source URLs (line 160). -/
def shaMarker : Str := strOf "#sha256="

/-- Python's (pat in s) substring test. -/
def isSubstrOf (pat s : Str) : Bool := decide (pat <:+: s)

/-- Python's s.endswith(suf) suffix test. -/
def strEndsWith (suf s : Str) : Bool := decide (suf <:+ s)

/-- Python's os.path.join for two components: the second wins if absolute,
otherwise a separator is inserted unless the first part is empty or already
ends with one. -/
def pathJoin (a b : Str) : Str :=
  if b.head? = some '/' then b
  else if a = [] ∨ a.getLast? = some '/' then a ++ b
  else a ++ '/' :: b

/-- Fuel-indexed recursion for pyReplace: each step consumes at least one
input character (the pattern, when it matches, is nonempty), so fuel equal
to the input length always suffices and the zero-fuel fallback is
unreachable from pyReplace. -/
def pyReplaceFuel (pat repl : Str) : Nat → Str → Str
  | _, [] => []
  | 0, s => s
  | Nat.succ fuel, c :: rest =>
    if pat ≠ [] ∧ pat <+: (c :: rest) then
      repl ++ pyReplaceFuel pat repl fuel ((c :: rest).drop pat.length)
    else
      c :: pyReplaceFuel pat repl fuel rest

/-- Python's s.replace(pat, repl) for a nonempty pattern: the left-to-right
non-overlapping scan CPython performs.  Every pattern used by the source
(the platform tag) is nonempty, so the empty-pattern case never arises and
is treated as no match. -/
def pyReplace (pat repl : Str) (s : Str) : Str :=
  pyReplaceFuel pat repl s.length s

/-- One rendered unit on a package page: the display name, the link target
and the optional hash-metadata attribute text. -/
structure LinkEntry where
  displayName : Str
  href : Str
  hashFragment : Str
deriving DecidableEq, Repr

/-- The attribute text prepended to a preserved digest fragment (line 161). -/
def hashAttrs : Str := strOf " data-requires-python=\"\" data-yanked=\"false\" "

/-- Embeds lines 159-161: if the source URL contains the digest marker, the
metadata attributes plus the URL from its first hash character onward;
otherwise empty. -/
def mkHashPart (url : Str) : Str :=
  if isSubstrOf shaMarker url then hashAttrs ++ url.dropWhile (fun c => c ≠ '#')
  else []

/-- Embeds the mirroring predicate of line 140. -/
def needs_local_copy (name : Str) : Bool :=
  isSubstrOf linuxTag name && isSubstrOf pydanticStr name

/-- Outcome of one attempted download: success, or a failure (timeout,
transport error or write error) recording whether an incomplete
destination file was left behind before cleanup. -/
inductive DlOutcome where
  | success : DlOutcome
  | failure : Bool → DlOutcome
deriving DecidableEq, Repr

/-- Embeds download_file (lines 17-46): on success the destination file
exists and True is returned; on any failure the incomplete destination
file, if one was written, is removed again and False is returned. -/
def download_file (oc : DlOutcome) (fs : List Str) (dest : Str) : Bool × List Str :=
  match oc with
  | DlOutcome.success => (true, dest :: fs)
  | DlOutcome.failure leftIncomplete =>
    let fs1 := if leftIncomplete then dest :: fs else fs
    (false, fs1.filter (fun q => decide (q ≠ dest)))

/-- The relative prefix used for mirrored links (line 155). -/
def dotdotSlash : Str := strOf "../"

/-- Embeds the per-wheel body of the renderer loop (lines 134-155): decide
whether the wheel needs a local copy; if so relabel it, download it unless
the destination already exists, and link relatively; otherwise link to the
original URL.  Returns the link entry produced (none when a download
failed and the link is skipped), the file system afterwards, and the
number of download requests performed. -/
def resolveLink (dl : Str → DlOutcome) (fs : List Str) (w : Artifact) :
    Option LinkEntry × List Str × Nat :=
  if needs_local_copy w.fileName then
    let displayName := pyReplace linuxTag androidTag w.fileName
    let localPath := pathJoin DOCS_DIR displayName
    if localPath ∈ fs then
      (some ⟨displayName, dotdotSlash ++ displayName, mkHashPart w.sourceUrl⟩, fs, 0)
    else
      match download_file (dl w.sourceUrl) fs localPath with
      | (true, fs1) => (some ⟨displayName, dotdotSlash ++ displayName, mkHashPart w.sourceUrl⟩, fs1, 1)
      | (false, fs1) => (none, fs1, 1)
  else
    (some ⟨w.fileName, w.sourceUrl, mkHashPart w.sourceUrl⟩, fs, 0)

/-- Embeds line 164: the anchor line written for one link entry. -/
def renderLink (e : LinkEntry) : Str :=
  strOf "    <a href=\"" ++ e.href ++ strOf "\"" ++ e.hashFragment ++ strOf ">" ++
    e.displayName ++ strOf "</a><br/>"

/-- Folds resolveLink over a package's wheel list in order, threading the
file system and collecting the produced link entries and request count. -/
def processWheels (dl : Str → DlOutcome) : List Str → List Artifact →
    List LinkEntry × List Str × Nat
  | fs, [] => ([], fs, 0)
  | fs, w :: ws =>
    let r := resolveLink dl fs w
    let rest := processWheels dl r.2.1 ws
    (match r.1 with
     | some x => x :: rest.1
     | none => rest.1, rest.2.1, r.2.2 + rest.2.2)

/-- Python's string less-or-equal: lexicographic comparison by code point,
which is the Mathlib lexicographic order on lists of characters. -/
def strLe (a b : Str) : Prop := a ≤ b

instance : DecidableRel strLe := fun a b => inferInstanceAs (Decidable (a ≤ b))

instance : IsTotal Str strLe := ⟨fun a b => le_total a b⟩

instance : IsTrans Str strLe := ⟨fun _ _ _ hab hbc => le_trans hab hbc⟩

/-- Python's tuple comparison on (file name, url) pairs, used by
sorted(wheels_info) on line 134. -/
def wheelLe (a b : Artifact) : Prop :=
  a.fileName < b.fileName ∨ (a.fileName = b.fileName ∧ a.sourceUrl ≤ b.sourceUrl)

instance : DecidableRel wheelLe := fun a b => by
  unfold wheelLe
  infer_instance

instance : IsTotal Artifact wheelLe := by
  constructor
  intro a b
  rcases lt_trichotomy a.fileName b.fileName with h | h | h
  · exact Or.inl (Or.inl h)
  · rcases le_total a.sourceUrl b.sourceUrl with h2 | h2
    · exact Or.inl (Or.inr ⟨h, h2⟩)
    · exact Or.inr (Or.inr ⟨h.symm, h2⟩)
  · exact Or.inr (Or.inl h)

instance : IsTrans Artifact wheelLe := by
  constructor
  intro a b c hab hbc
  rcases hab with h1 | ⟨h1, h1u⟩
  · rcases hbc with h2 | ⟨h2, _⟩
    · exact Or.inl (lt_trans h1 h2)
    · exact Or.inl (h2 ▸ h1)
  · rcases hbc with h2 | ⟨h2, h2u⟩
    · exact Or.inl (h1 ▸ h2)
    · exact Or.inr ⟨h1.trans h2, le_trans h1u h2u⟩

/-- Embeds sorted(wheels_info) of line 134. -/
def sortWheels (ws : List Artifact) : List Artifact :=
  List.insertionSort wheelLe ws

/-- One generated package page: its output path, the heading line derived
from the package name, and the link entries in rendered order.  The fixed
HTML shell around them is constant text not modelled further. -/
structure PackagePage where
  path : Str
  headerLine : Str
  entries : List LinkEntry
deriving DecidableEq, Repr

/-- The file name of every generated index page. -/
def indexHtml : Str := strOf "index.html"

/-- Embeds generate_packages_index (lines 94-176) minus the constant HTML
shell: for each group, in dict order, sort its wheels, resolve every link
(downloading as needed), and record the page at
docs/<package_name.lower()>/index.html. -/
def generate_packages_index (dl : Str → DlOutcome) : List Str →
    List (Str × List Artifact) → List PackagePage × List Str × Nat
  | fs, [] => ([], fs, 0)
  | fs, (name, ws) :: rest =>
    let r := processWheels dl fs (sortWheels ws)
    let page : PackagePage :=
      ⟨pathJoin (pathJoin DOCS_DIR (pyLower name)) indexHtml,
       strOf "<h1>Links for " ++ pyLower name ++ strOf "</h1>", r.1⟩
    let restr := generate_packages_index dl r.2.1 rest
    (page :: restr.1, restr.2.1, r.2.2 + restr.2.2)

/-- Embeds the link loop of generate_main_pages (lines 212-216): sort the
package names, normalize each again, and emit one (href, text) pair per
package, the href being the normalized name with a trailing slash. -/
def generate_main_pages (packages : List Str) : List (Str × Str) :=
  (List.insertionSort strLe packages).map
    (fun k =>
      let n := pyReplace1 '_' '-' (pyLower k)
      (n ++ strOf "/", n))

/-- Embeds line 216: the anchor line written for one top-level link. -/
def renderMainLink (l : Str × Str) : Str :=
  strOf "    <a href=\"" ++ l.1 ++ strOf "\">" ++ l.2 ++ strOf "</a><br/>"

/-- The output path of the top-level page (line 187). -/
def mainIndexPath : Str := pathJoin DOCS_DIR indexHtml

/-- The modelled content of the top-level page: its heading plus one anchor
line per package, in rendered order (constant shell text omitted). -/
def mainPageContent (packages : List Str) : List Str :=
  strOf "<h1>Termux User Repository PyPI Index</h1>" ::
    (generate_main_pages packages).map renderMainLink

/-- The modelled content of one package page: its heading plus one anchor
line per link entry, in rendered order (constant shell text omitted). -/
def packagePageContent (p : PackagePage) : List Str :=
  p.headerLine :: p.entries.map renderLink

/-- One record of the release's assets array: the two fields the source
reads, each possibly absent. -/
structure AssetInfo where
  name : Option Str
  browser_download_url : Option Str
deriving DecidableEq, Repr

/-- The observable outcomes of the single listing request (lines 49-67):
a requests exception (transport failure, timeout, or a non-success HTTP
status raised by raise_for_status), a JSON decoding failure, a JSON body
without the assets key, or a successful response carrying the assets. -/
inductive ListingResponse where
  | requestError : ListingResponse
  | badJson : ListingResponse
  | noAssets : ListingResponse
  | ok : List AssetInfo → ListingResponse
deriving DecidableEq, Repr

/-- Python truthiness of an optional string: present and nonempty. -/
def pyTruthy : Option Str → Bool
  | some s => !s.isEmpty
  | none => false

/-- Embeds get_wheel_infos (lines 49-80): every error outcome yields the
empty list; on success, keep in order exactly the assets with a truthy
name, a truthy download URL and the .whl suffix. -/
def get_wheel_infos (resp : ListingResponse) : List Artifact :=
  match resp with
  | ListingResponse.requestError => []
  | ListingResponse.badJson => []
  | ListingResponse.noAssets => []
  | ListingResponse.ok assets =>
    assets.foldr
      (fun a acc =>
        if pyTruthy a.name && pyTruthy a.browser_download_url &&
            strEndsWith (strOf ".whl") (a.name.getD []) then
          ⟨a.name.getD [], a.browser_download_url.getD []⟩ :: acc
        else acc)
      []

/-- Everything observable a run produces: the HTML files written in order
(path and modelled content), the file system after all downloads, and the
number of download requests performed. -/
structure RunResult where
  writes : List (Str × List Str)
  fs : List Str
  downloadRequests : Nat
deriving DecidableEq, Repr

/-- Embeds main (lines 225-238): list, bail out on an empty listing, group,
bail out on an empty grouping, generate the package pages (with their
downloads), then write the top-level page last. -/
def main_run (dl : Str → DlOutcome) (fs0 : List Str) (resp : ListingResponse) : RunResult :=
  let wheel_infos := get_wheel_infos resp
  if wheel_infos.isEmpty then ⟨[], fs0, 0⟩
  else
    let packages_dict := get_packages_dict wheel_infos
    if packages_dict.isEmpty then ⟨[], fs0, 0⟩
    else
      let gen := generate_packages_index dl fs0 packages_dict
      ⟨gen.1.map (fun p => (p.path, packagePageContent p)) ++
         [(mainIndexPath, mainPageContent (packages_dict.map (fun g => g.1)))],
       gen.2.1, gen.2.2⟩

/-- The content a path holds after a sequence of writes: the last write to
that path wins, matching unconditional file overwriting. -/
def finalContent (writes : List (Str × List Str)) (path : Str) : Option (List Str) :=
  ((writes.filter (fun wr => decide (wr.1 = path))).map (fun wr => wr.2)).getLast?

theorem pySplit_ne_nil (sep : Char) (l : Str) : pySplit sep l ≠ [] := by
  induction l with
  | nil => simp [pySplit]
  | cons c rest ih =>
    simp only [pySplit]
    split
    · simp
    · split
      · simp
      · simp

theorem pySplit_headD (sep : Char) (l : Str) :
    (pySplit sep l).headD [] = l.takeWhile (fun c => c ≠ sep) := by
  induction l with
  | nil => rfl
  | cons c rest ih =>
    by_cases h : c = sep
    · subst h
      simp [pySplit, List.takeWhile_cons]
    · simp only [pySplit, if_neg h]
      cases hs : pySplit sep rest with
      | nil => exact absurd hs (pySplit_ne_nil sep rest)
      | cons f r =>
        rw [hs] at ih
        simp only [List.headD_cons] at ih
        simp only [decide_not] at ih
        simp [List.takeWhile_cons, h, ← ih]

theorem charToNat_ofNat_valid (n : Nat) (h : n.isValidChar) : (Char.ofNat n).toNat = n := by
  unfold Char.ofNat
  rw [dif_pos h]
  rfl

theorem toLower_toNat_of_upper {c : Char} (h1 : 65 ≤ c.toNat) (h2 : c.toNat ≤ 90) :
    (Char.toLower c).toNat = c.toNat + 32 := by
  unfold Char.toLower
  rw [if_pos ⟨h1, h2⟩]
  exact charToNat_ofNat_valid _ (Or.inl (by omega))

theorem toLower_of_not_upper {c : Char} (h : ¬(65 ≤ c.toNat ∧ c.toNat ≤ 90)) :
    Char.toLower c = c := by
  unfold Char.toLower
  rw [if_neg h]

theorem toLower_idempotent (c : Char) : Char.toLower (Char.toLower c) = Char.toLower c := by
  by_cases h : 65 ≤ c.toNat ∧ c.toNat ≤ 90
  · have h1 := toLower_toNat_of_upper h.1 h.2
    exact toLower_of_not_upper (by omega)
  · rw [toLower_of_not_upper h, toLower_of_not_upper h]

theorem toLower_ne_underscore {c : Char} (h : c ≠ '_') : Char.toLower c ≠ '_' := by
  by_cases hc : 65 ≤ c.toNat ∧ c.toNat ≤ 90
  · have h1 := toLower_toNat_of_upper hc.1 hc.2
    intro he
    rw [he] at h1
    have h95 : ('_').toNat = 95 := rfl
    omega
  · rw [toLower_of_not_upper hc]
    exact h

theorem pyLower_pyLower (s : Str) : pyLower (pyLower s) = pyLower s := by
  induction s with
  | nil => rfl
  | cons c cs ih =>
    simp only [pyLower, List.map_cons] at *
    exact List.cons_eq_cons.mpr ⟨toLower_idempotent c, ih⟩

theorem pyReplace1_eq_self {s : Str} (h : ∀ c ∈ s, c ≠ '_') :
    pyReplace1 '_' '-' s = s := by
  induction s with
  | nil => rfl
  | cons c cs ih =>
    simp only [pyReplace1, List.map_cons]
    rw [if_neg (h c (List.mem_cons_self c cs))]
    have := ih (fun x hx => h x (List.mem_cons_of_mem c hx))
    simp only [pyReplace1] at this
    rw [this]

theorem normalizePackageName_no_underscore (f : Str) :
    ∀ c ∈ normalizePackageName f, c ≠ '_' := by
  intro c hc
  simp only [normalizePackageName, pyLower, pyReplace1, List.mem_map] at hc
  obtain ⟨b, hb, rfl⟩ := hc
  obtain ⟨a, _, rfl⟩ := hb
  by_cases ha : a = '_'
  · rw [if_pos ha]
    exact toLower_ne_underscore (by decide)
  · rw [if_neg ha]
    exact toLower_ne_underscore ha

theorem pyLower_normalize_fix (f : Str) :
    pyLower (normalizePackageName f) = normalizePackageName f := by
  simp only [normalizePackageName]
  exact pyLower_pyLower _

theorem renormalize_fix (f : Str) :
    pyReplace1 '_' '-' (pyLower (normalizePackageName f)) = normalizePackageName f := by
  rw [pyLower_normalize_fix]
  exact pyReplace1_eq_self (normalizePackageName_no_underscore f)

theorem mem_insertGroup_self (d : List (Str × List Artifact)) (k : Str) (w : Artifact) :
    ∃ ws, (k, ws) ∈ insertGroup d k w ∧ w ∈ ws := by
  induction d with
  | nil => exact ⟨[w], List.mem_singleton_self _, List.mem_singleton_self _⟩
  | cons g rest ih =>
    obtain ⟨k0, ws0⟩ := g
    simp only [insertGroup]
    by_cases h : k0 = k
    · subst h
      rw [if_pos rfl]
      exact ⟨ws0 ++ [w], List.mem_cons_self _ _, List.mem_append_right _ (List.mem_singleton_self _)⟩
    · rw [if_neg h]
      obtain ⟨ws, hmem, hw⟩ := ih
      exact ⟨ws, List.mem_cons_of_mem _ hmem, hw⟩

theorem mem_insertGroup_of_mem {d : List (Str × List Artifact)} (k : Str) (w : Artifact)
    {k1 : Str} {ws1 : List Artifact} (hg : (k1, ws1) ∈ d) {x : Artifact} (hx : x ∈ ws1) :
    ∃ ws, (k1, ws) ∈ insertGroup d k w ∧ x ∈ ws := by
  induction d with
  | nil => cases hg
  | cons g rest ih =>
    obtain ⟨k0, ws0⟩ := g
    simp only [insertGroup]
    by_cases h : k0 = k
    · subst h
      rw [if_pos rfl]
      rcases List.mem_cons.mp hg with heq | htail
      · injection heq with h1 h2
        subst h1
        subst h2
        exact ⟨ws1 ++ [w], List.mem_cons_self _ _, List.mem_append_left _ hx⟩
      · exact ⟨ws1, List.mem_cons_of_mem _ htail, hx⟩
    · rw [if_neg h]
      rcases List.mem_cons.mp hg with heq | htail
      · injection heq with h1 h2
        subst h1
        subst h2
        exact ⟨ws1, List.mem_cons_self _ _, hx⟩
      · obtain ⟨ws, hmem, hxw⟩ := ih htail
        exact ⟨ws, List.mem_cons_of_mem _ hmem, hxw⟩

theorem foldl_insert_preserves (infos : List Artifact) :
    ∀ (d : List (Str × List Artifact)) (k : Str) (x : Artifact),
      (∃ ws, (k, ws) ∈ d ∧ x ∈ ws) →
      ∃ ws,
        (k, ws) ∈ infos.foldl (fun d w => insertGroup d (normalizePackageName w.fileName) w) d ∧
          x ∈ ws := by
  induction infos with
  | nil =>
    intro d k x h
    simpa using h
  | cons a rest ih =>
    intro d k x h
    obtain ⟨ws, hmem, hx⟩ := h
    obtain ⟨ws2, hmem2, hx2⟩ := mem_insertGroup_of_mem (normalizePackageName a.fileName) a hmem hx
    exact ih _ k x ⟨ws2, hmem2, hx2⟩

theorem get_packages_dict_mem_aux (infos : List Artifact) :
    ∀ (d : List (Str × List Artifact)) (w : Artifact), w ∈ infos →
      ∃ ws,
        (normalizePackageName w.fileName, ws) ∈
            infos.foldl (fun d w => insertGroup d (normalizePackageName w.fileName) w) d ∧
          w ∈ ws := by
  induction infos with
  | nil =>
    intro d w h
    cases h
  | cons a rest ih =>
    intro d w h
    rcases List.mem_cons.mp h with rfl | htail
    · exact foldl_insert_preserves rest _ _ _
        (mem_insertGroup_self d (normalizePackageName w.fileName) w)
    · exact ih _ w htail

theorem get_packages_dict_mem {infos : List Artifact} {w : Artifact} (h : w ∈ infos) :
    ∃ ws, (normalizePackageName w.fileName, ws) ∈ get_packages_dict infos ∧ w ∈ ws :=
  get_packages_dict_mem_aux infos [] w h

theorem insertGroup_keys (d : List (Str × List Artifact)) (k : Str) (w : Artifact) :
    (insertGroup d k w).map Prod.fst =
      if k ∈ d.map Prod.fst then d.map Prod.fst else d.map Prod.fst ++ [k] := by
  induction d with
  | nil => simp [insertGroup]
  | cons g rest ih =>
    obtain ⟨k0, ws0⟩ := g
    simp only [insertGroup]
    by_cases h : k0 = k
    · subst h
      rw [if_pos rfl]
      simp [List.mem_cons]
    · rw [if_neg h]
      by_cases h2 : k ∈ rest.map Prod.fst
      · simp [List.mem_cons, h2, ih]
      · have hne : k ≠ k0 := fun he => h he.symm
        simp [List.mem_cons, h2, ih, hne]

theorem insertGroup_keys_nodup {d : List (Str × List Artifact)}
    (hd : (d.map Prod.fst).Nodup) (k : Str) (w : Artifact) :
    ((insertGroup d k w).map Prod.fst).Nodup := by
  rw [insertGroup_keys]
  by_cases h : k ∈ d.map Prod.fst
  · rwa [if_pos h]
  · rw [if_neg h]
    simp [List.nodup_append, hd, h]

theorem get_packages_dict_keys_nodup_aux (infos : List Artifact) :
    ∀ d : List (Str × List Artifact), (d.map Prod.fst).Nodup →
      ((infos.foldl (fun d w => insertGroup d (normalizePackageName w.fileName) w) d).map
          Prod.fst).Nodup := by
  induction infos with
  | nil =>
    intro d hd
    simpa using hd
  | cons a rest ih =>
    intro d hd
    exact ih _ (insertGroup_keys_nodup hd _ _)

theorem get_packages_dict_keys_nodup (infos : List Artifact) :
    ((get_packages_dict infos).map Prod.fst).Nodup :=
  get_packages_dict_keys_nodup_aux infos [] (by simp)

theorem insertGroup_key_shape {d : List (Str × List Artifact)} {k : Str} {w : Artifact}
    {g : Str × List Artifact} (hg : g ∈ insertGroup d k w) :
    g.1 = k ∨ g.1 ∈ d.map Prod.fst := by
  induction d with
  | nil =>
    rcases List.mem_singleton.mp hg with rfl
    exact Or.inl rfl
  | cons g0 rest ih =>
    obtain ⟨k0, ws0⟩ := g0
    simp only [insertGroup] at hg
    by_cases h : k0 = k
    · rw [if_pos h] at hg
      rcases List.mem_cons.mp hg with rfl | htail
      · exact Or.inr (by simp)
      · exact Or.inr (by
          simp only [List.map_cons, List.mem_cons]
          exact Or.inr (List.mem_map_of_mem Prod.fst htail))
    · rw [if_neg h] at hg
      rcases List.mem_cons.mp hg with rfl | htail
      · exact Or.inr (by simp)
      · rcases ih htail with h1 | h1
        · exact Or.inl h1
        · exact Or.inr (by simp [List.mem_cons, h1])

theorem get_packages_dict_keys_norm_aux (infos : List Artifact) :
    ∀ d : List (Str × List Artifact),
      (∀ g ∈ d, ∃ f, Prod.fst g = normalizePackageName f) →
      ∀ g ∈ infos.foldl (fun d w => insertGroup d (normalizePackageName w.fileName) w) d,
        ∃ f, Prod.fst g = normalizePackageName f := by
  induction infos with
  | nil =>
    intro d hd
    simpa using hd
  | cons a rest ih =>
    intro d hd
    apply ih
    intro g hg
    rcases insertGroup_key_shape hg with h1 | h1
    · exact ⟨a.fileName, h1⟩
    · obtain ⟨g', hg', he⟩ := List.mem_map.mp h1
      obtain ⟨f, hf⟩ := hd g' hg'
      exact ⟨f, he ▸ hf⟩

theorem get_packages_dict_keys_norm {infos : List Artifact} {g : Str × List Artifact}
    (hg : g ∈ get_packages_dict infos) : ∃ f, g.1 = normalizePackageName f :=
  get_packages_dict_keys_norm_aux infos [] (by simp) g hg

theorem sortWheels_sorted (ws : List Artifact) : List.Sorted wheelLe (sortWheels ws) :=
  List.sorted_insertionSort wheelLe ws

theorem sortWheels_sorted_fileName (ws : List Artifact) :
    List.Sorted (fun a b : Artifact => a.fileName ≤ b.fileName) (sortWheels ws) := by
  refine List.Pairwise.imp ?_ (sortWheels_sorted ws)
  intro a b h
  rcases h with h | ⟨h, _⟩
  · exact le_of_lt h
  · exact le_of_eq h

theorem sortWheels_perm (ws : List Artifact) : (sortWheels ws).Perm ws :=
  List.perm_insertionSort wheelLe ws

theorem resolveLink_not_needed {w : Artifact} (h : needs_local_copy w.fileName = false)
    (dl : Str → DlOutcome) (fs : List Str) :
    resolveLink dl fs w = (some ⟨w.fileName, w.sourceUrl, mkHashPart w.sourceUrl⟩, fs, 0) := by
  simp [resolveLink, h]

theorem resolveLink_already_mirrored {w : Artifact} (h : needs_local_copy w.fileName = true)
    (dl : Str → DlOutcome) {fs : List Str}
    (hmem : pathJoin DOCS_DIR (pyReplace linuxTag androidTag w.fileName) ∈ fs) :
    resolveLink dl fs w =
      (some ⟨pyReplace linuxTag androidTag w.fileName,
         dotdotSlash ++ pyReplace linuxTag androidTag w.fileName, mkHashPart w.sourceUrl⟩,
       fs, 0) := by
  simp [resolveLink, h, hmem]

theorem resolveLink_download_success {w : Artifact} (h : needs_local_copy w.fileName = true)
    {dl : Str → DlOutcome} (hdl : dl w.sourceUrl = DlOutcome.success) {fs : List Str}
    (hmem : pathJoin DOCS_DIR (pyReplace linuxTag androidTag w.fileName) ∉ fs) :
    resolveLink dl fs w =
      (some ⟨pyReplace linuxTag androidTag w.fileName,
         dotdotSlash ++ pyReplace linuxTag androidTag w.fileName, mkHashPart w.sourceUrl⟩,
       pathJoin DOCS_DIR (pyReplace linuxTag androidTag w.fileName) :: fs, 1) := by
  simp [resolveLink, h, hmem, download_file, hdl]

theorem download_file_failure {fs : List Str} {dest : Str} (hmem : dest ∉ fs) (b : Bool) :
    download_file (DlOutcome.failure b) fs dest = (false, fs) := by
  have hfil : fs.filter (fun q => decide (q ≠ dest)) = fs := by
    apply List.filter_eq_self.mpr
    intro q hq
    simp only [decide_eq_true_eq]
    exact fun he => hmem (he ▸ hq)
  cases b <;> simp [download_file, List.filter_cons, hfil] <;>
    exact fun a ha he => hmem (he ▸ ha)

theorem resolveLink_download_failure {w : Artifact} (h : needs_local_copy w.fileName = true)
    {dl : Str → DlOutcome} {b : Bool} (hdl : dl w.sourceUrl = DlOutcome.failure b)
    {fs : List Str} (hmem : pathJoin DOCS_DIR (pyReplace linuxTag androidTag w.fileName) ∉ fs) :
    resolveLink dl fs w = (none, fs, 1) := by
  simp only [resolveLink, h, if_true]
  rw [if_neg hmem, hdl, download_file_failure hmem b]

theorem resolveLink_some_mirror {dl : Str → DlOutcome} {fs fs1 : List Str} {w : Artifact}
    {e : LinkEntry} {n : Nat} (hneed : needs_local_copy w.fileName = true)
    (h : resolveLink dl fs w = (some e, fs1, n)) :
    e = ⟨pyReplace linuxTag androidTag w.fileName,
         dotdotSlash ++ pyReplace linuxTag androidTag w.fileName, mkHashPart w.sourceUrl⟩ ∧
      pathJoin DOCS_DIR (pyReplace linuxTag androidTag w.fileName) ∈ fs1 := by
  by_cases hmem : pathJoin DOCS_DIR (pyReplace linuxTag androidTag w.fileName) ∈ fs
  · rw [resolveLink_already_mirrored hneed dl hmem] at h
    injection h with h1 h2
    injection h2 with h2 h3
    exact ⟨(Option.some.injEq .. ▸ h1 : _).symm ▸ rfl, h2 ▸ hmem⟩
  · cases hdl : dl w.sourceUrl with
    | success =>
      rw [resolveLink_download_success hneed hdl hmem] at h
      injection h with h1 h2
      injection h2 with h2 h3
      constructor
      · exact (Option.some.inj h1).symm
      · rw [← h2]
        exact List.mem_cons_self _ _
    | failure b =>
      rw [resolveLink_download_failure hneed hdl hmem] at h
      injection h with h1 h2
      cases h1

theorem processWheels_cons_skip {dl : Str → DlOutcome} {fs : List Str} {w : Artifact}
    (ws : List Artifact) (h : resolveLink dl fs w = (none, fs, 1)) :
    (processWheels dl fs (w :: ws)).1 = (processWheels dl fs ws).1 ∧
    (processWheels dl fs (w :: ws)).2.1 = (processWheels dl fs ws).2.1 := by
  simp [processWheels, h]

theorem generate_packages_index_length (dl : Str → DlOutcome) (fs : List Str)
    (pd : List (Str × List Artifact)) :
    (generate_packages_index dl fs pd).1.length = pd.length := by
  induction pd generalizing fs with
  | nil => simp [generate_packages_index]
  | cons g rest ih =>
    obtain ⟨name, ws⟩ := g
    simp [generate_packages_index, ih]

/-- C1 (counterexample): the claim's own example pair refutes it.  The file
name a-b-2.0-py3-none-any.whl normalizes to the package name a, not a-b,
because the split cuts at the FIRST hyphen; grouping the two files therefore
yields two distinct groups with keys a-b and a, not one shared group. -/
theorem claim1_counterexample :
    normalizePackageName (strOf "a-b-2.0-py3-none-any.whl") ≠ strOf "a-b" ∧
    (get_packages_dict
        [⟨strOf "A_B-1.0-py3-none-any.whl", strOf "urlA"⟩,
         ⟨strOf "a-b-2.0-py3-none-any.whl", strOf "urlB"⟩]).map Prod.fst =
      [strOf "a-b", strOf "a"] := by
  exact ⟨by decide, by decide⟩

/-- C1 (amended): for every artifact file name the derived package name
equals the substring before the first hyphen with underscores replaced by
hyphens and lower-cased; under that rule A_B-1.0-py3-none-any.whl
normalizes to a-b but a-b-2.0-py3-none-any.whl normalizes to a, so the two
land in different package groups. -/
theorem claim1_package_name (fileName : Str) :
    normalizePackageName fileName = specPackageName fileName ∧
    normalizePackageName (strOf "A_B-1.0-py3-none-any.whl") = strOf "a-b" ∧
    normalizePackageName (strOf "a-b-2.0-py3-none-any.whl") = strOf "a" ∧
    (get_packages_dict
        [⟨strOf "A_B-1.0-py3-none-any.whl", strOf "urlA"⟩,
         ⟨strOf "a-b-2.0-py3-none-any.whl", strOf "urlB"⟩]).map Prod.fst =
      [strOf "a-b", strOf "a"] := by
  refine ⟨?_, by decide, by decide, by decide⟩
  simp only [normalizePackageName, specPackageName, pySplit_headD]

/-- C6 (counterexample): an artifact whose file name contains no hyphen is
NOT skipped: Python's split returns the whole name as its single field, so
the artifact is grouped under its whole normalized file name. -/
theorem claim6_counterexample :
    get_packages_dict [⟨strOf "foowhl", strOf "url"⟩] =
      [(strOf "foowhl", [⟨strOf "foowhl", strOf "url"⟩])] := by
  decide

/-- C6 (amended): for an artifact whose file name contains no hyphen, the
split can never produce an empty field list (so the IndexError handler of
lines 89-90 is unreachable and nothing is skipped), the derived package
name is the whole file name normalized, and the artifact is included in
that package group. -/
theorem claim6_no_separator {infos : List Artifact} {w : Artifact} (hw : w ∈ infos)
    (hnosep : '-' ∉ w.fileName) :
    pySplit '-' w.fileName ≠ [] ∧
    normalizePackageName w.fileName = pyLower (pyReplace1 '_' '-' w.fileName) ∧
    ∃ ws, (normalizePackageName w.fileName, ws) ∈ get_packages_dict infos ∧ w ∈ ws := by
  refine ⟨pySplit_ne_nil _ _, ?_, get_packages_dict_mem hw⟩
  simp only [normalizePackageName, pySplit_headD]
  have : w.fileName.takeWhile (fun c => decide (c ≠ '-')) = w.fileName := by
    apply List.takeWhile_eq_self_iff.mpr
    intro x hx
    simp only [decide_eq_true_eq]
    exact fun he => hnosep (he ▸ hx)
  rw [this]

theorem claim6_no_separator_witness :
    pySplit '-' (strOf "foowhl") ≠ [] ∧
    normalizePackageName (strOf "foowhl") = pyLower (pyReplace1 '_' '-' (strOf "foowhl")) ∧
    ∃ ws, (normalizePackageName (strOf "foowhl"), ws) ∈
        get_packages_dict [⟨strOf "foowhl", strOf "url"⟩] ∧
      (⟨strOf "foowhl", strOf "url"⟩ : Artifact) ∈ ws :=
  @claim6_no_separator [⟨strOf "foowhl", strOf "url"⟩] ⟨strOf "foowhl", strOf "url"⟩
    (List.mem_singleton_self _) (by decide)

/-- C5: when the listing step fails with a requests exception (transport
failure, timeout, or a non-success HTTP status such as 500 raised by
raise_for_status), with invalid JSON, or with a response lacking the
assets collection, the run produces no writes at all, leaves the file
system untouched, and attempts no download. -/
theorem claim5_listing_failure (dl : Str → DlOutcome) (fs0 : List Str) :
    main_run dl fs0 ListingResponse.requestError = ⟨[], fs0, 0⟩ ∧
    main_run dl fs0 ListingResponse.badJson = ⟨[], fs0, 0⟩ ∧
    main_run dl fs0 ListingResponse.noAssets = ⟨[], fs0, 0⟩ :=
  ⟨rfl, rfl, rfl⟩

/-- C10: a file name beginning with the separator derives the empty package
name; the group is still created, its page path collapses to
docs/index.html (joining docs with the empty package directory), which is
exactly the top-level index path, and the top-level page written last is
what that path finally holds -- overwriting the package page written
first, whose content differed. -/
theorem claim10_empty_package_name :
    normalizePackageName (strOf "-x-1.0-py3-none-any.whl") = [] ∧
    (get_packages_dict [⟨strOf "-x-1.0-py3-none-any.whl", strOf "url"⟩]).map Prod.fst = [[]] ∧
    pathJoin (pathJoin DOCS_DIR (pyLower [])) indexHtml = mainIndexPath ∧
    (main_run (fun _ => DlOutcome.success) []
        (ListingResponse.ok
          [⟨some (strOf "-x-1.0-py3-none-any.whl"), some (strOf "url")⟩])).writes.map Prod.fst =
      [mainIndexPath, mainIndexPath] ∧
    finalContent
        (main_run (fun _ => DlOutcome.success) []
          (ListingResponse.ok
            [⟨some (strOf "-x-1.0-py3-none-any.whl"), some (strOf "url")⟩])).writes
        mainIndexPath =
      some (mainPageContent [[]]) ∧
    ((main_run (fun _ => DlOutcome.success) []
        (ListingResponse.ok
          [⟨some (strOf "-x-1.0-py3-none-any.whl"), some (strOf "url")⟩])).writes.head?.map
        Prod.snd ≠
      some (mainPageContent [[]])) := by
  refine ⟨by decide, by decide, by decide, by decide, by decide, by decide⟩

/-- C4: when a required download fails (any timeout, transport or write
failure, with or without a partially written file), the destination file
is absent afterwards, the file system is exactly as before, the one link
is omitted while the remaining wheels of the package still produce their
links unchanged, and every package in the dict still gets its page. -/
theorem claim4_download_failure (dl : Str → DlOutcome) (fs : List Str) (w : Artifact)
    (ws : List Artifact) (pd : List (Str × List Artifact)) (b : Bool)
    (hneed : needs_local_copy w.fileName = true)
    (hdl : dl w.sourceUrl = DlOutcome.failure b)
    (hmem : pathJoin DOCS_DIR (pyReplace linuxTag androidTag w.fileName) ∉ fs) :
    (resolveLink dl fs w).1 = none ∧
    (resolveLink dl fs w).2.1 = fs ∧
    pathJoin DOCS_DIR (pyReplace linuxTag androidTag w.fileName) ∉ (resolveLink dl fs w).2.1 ∧
    (processWheels dl fs (w :: ws)).1 = (processWheels dl fs ws).1 ∧
    (generate_packages_index dl fs pd).1.length = pd.length := by
  have h := resolveLink_download_failure hneed hdl hmem
  refine ⟨by rw [h], by rw [h], by rw [h]; exact hmem, ?_,
    generate_packages_index_length dl fs pd⟩
  exact (processWheels_cons_skip ws h).1

theorem claim4_download_failure_witness :
    (resolveLink (fun _ => DlOutcome.failure true) []
        ⟨strOf "pydantic_core-2.0-cp311-cp311-linux_aarch64.whl", strOf "u"⟩).1 = none ∧
    (resolveLink (fun _ => DlOutcome.failure true) []
        ⟨strOf "pydantic_core-2.0-cp311-cp311-linux_aarch64.whl", strOf "u"⟩).2.1 = [] ∧
    pathJoin DOCS_DIR
        (pyReplace linuxTag androidTag (strOf "pydantic_core-2.0-cp311-cp311-linux_aarch64.whl")) ∉
      (resolveLink (fun _ => DlOutcome.failure true) []
        ⟨strOf "pydantic_core-2.0-cp311-cp311-linux_aarch64.whl", strOf "u"⟩).2.1 ∧
    (processWheels (fun _ => DlOutcome.failure true) []
        [⟨strOf "pydantic_core-2.0-cp311-cp311-linux_aarch64.whl", strOf "u"⟩,
         ⟨strOf "foo-1.0-py3-none-any.whl", strOf "v"⟩]).1 =
      (processWheels (fun _ => DlOutcome.failure true) []
        [⟨strOf "foo-1.0-py3-none-any.whl", strOf "v"⟩]).1 ∧
    (generate_packages_index (fun _ => DlOutcome.failure true) []
        [(strOf "pydantic-core",
          [⟨strOf "pydantic_core-2.0-cp311-cp311-linux_aarch64.whl", strOf "u"⟩])]).1.length = 1 :=
  claim4_download_failure (fun _ => DlOutcome.failure true) []
    ⟨strOf "pydantic_core-2.0-cp311-cp311-linux_aarch64.whl", strOf "u"⟩
    [⟨strOf "foo-1.0-py3-none-any.whl", strOf "v"⟩]
    [(strOf "pydantic-core",
      [⟨strOf "pydantic_core-2.0-cp311-cp311-linux_aarch64.whl", strOf "u"⟩])]
    true (by decide) rfl (by decide)

/-- C2: mirroring is required exactly when the file name contains both the
linux_aarch64 platform tag and the pydantic substring; a wheel not
requiring mirroring links to its original URL under its original file name
with the file system untouched; a mirrored wheel's link entry points one
directory up at ../<displayName>. -/
theorem claim2_mirroring (dl : Str → DlOutcome) (fs : List Str) (w : Artifact) :
    (needs_local_copy w.fileName = true ↔
      (isSubstrOf linuxTag w.fileName = true ∧ isSubstrOf pydanticStr w.fileName = true)) ∧
    (needs_local_copy w.fileName = false →
      resolveLink dl fs w = (some ⟨w.fileName, w.sourceUrl, mkHashPart w.sourceUrl⟩, fs, 0)) ∧
    (needs_local_copy w.fileName = true →
      ∀ e fs1 n, resolveLink dl fs w = (some e, fs1, n) →
        e.displayName = pyReplace linuxTag androidTag w.fileName ∧
        e.href = dotdotSlash ++ e.displayName) := by
  refine ⟨?_, fun h => resolveLink_not_needed h dl fs, ?_⟩
  · simp [needs_local_copy, Bool.and_eq_true]
  · intro h e fs1 n he
    obtain ⟨he1, _⟩ := resolveLink_some_mirror h he
    rw [he1]
    exact ⟨rfl, rfl⟩

theorem claim2_mirroring_witness :
    (needs_local_copy (strOf "pydantic_core-2.0-cp311-cp311-linux_aarch64.whl") = true ↔
      (isSubstrOf linuxTag (strOf "pydantic_core-2.0-cp311-cp311-linux_aarch64.whl") = true ∧
        isSubstrOf pydanticStr (strOf "pydantic_core-2.0-cp311-cp311-linux_aarch64.whl") = true)) ∧
    resolveLink (fun _ => DlOutcome.success) [] ⟨strOf "foo-1.0-py3-none-any.whl", strOf "v"⟩ =
      (some ⟨strOf "foo-1.0-py3-none-any.whl", strOf "v", mkHashPart (strOf "v")⟩, [], 0) ∧
    (⟨strOf "pydantic_core-2.0-cp311-cp311-android_24_aarch64.whl",
        strOf "../pydantic_core-2.0-cp311-cp311-android_24_aarch64.whl",
        ([] : Str)⟩ : LinkEntry).displayName =
      pyReplace linuxTag androidTag (strOf "pydantic_core-2.0-cp311-cp311-linux_aarch64.whl") ∧
    (⟨strOf "pydantic_core-2.0-cp311-cp311-android_24_aarch64.whl",
        strOf "../pydantic_core-2.0-cp311-cp311-android_24_aarch64.whl",
        ([] : Str)⟩ : LinkEntry).href =
      dotdotSlash ++ strOf "pydantic_core-2.0-cp311-cp311-android_24_aarch64.whl" := by
  refine ⟨(claim2_mirroring (fun _ => DlOutcome.success) []
      ⟨strOf "pydantic_core-2.0-cp311-cp311-linux_aarch64.whl", strOf "u"⟩).1,
    (claim2_mirroring (fun _ => DlOutcome.success) []
      ⟨strOf "foo-1.0-py3-none-any.whl", strOf "v"⟩).2.1 (by decide), ?_, ?_⟩
  · exact ((claim2_mirroring (fun _ => DlOutcome.success) []
      ⟨strOf "pydantic_core-2.0-cp311-cp311-linux_aarch64.whl", strOf "u"⟩).2.2 (by decide)
      ⟨strOf "pydantic_core-2.0-cp311-cp311-android_24_aarch64.whl",
        strOf "../pydantic_core-2.0-cp311-cp311-android_24_aarch64.whl", []⟩
      [strOf "docs/pydantic_core-2.0-cp311-cp311-android_24_aarch64.whl"] 1 (by decide)).1
  · exact (by decide : (strOf "../pydantic_core-2.0-cp311-cp311-android_24_aarch64.whl" : Str) =
      dotdotSlash ++ strOf "pydantic_core-2.0-cp311-cp311-android_24_aarch64.whl")

/-- C3: mirroring is idempotent at the file level: once a call of the
mirror step for a wheel has produced a link entry (so the destination file
exists), running the step again against the resulting file system, under
ANY download oracle, performs zero download requests, leaves the file
system exactly as it was, and returns the same link entry. -/
theorem claim3_mirror_idempotent (dl dl2 : Str → DlOutcome) (fs fs1 : List Str) (w : Artifact)
    (e : LinkEntry) (n : Nat) (hneed : needs_local_copy w.fileName = true)
    (h : resolveLink dl fs w = (some e, fs1, n)) :
    resolveLink dl2 fs1 w = (some e, fs1, 0) := by
  obtain ⟨he, hmem⟩ := resolveLink_some_mirror hneed h
  rw [resolveLink_already_mirrored hneed dl2 hmem, he]

theorem claim3_mirror_idempotent_witness :
    resolveLink (fun _ => DlOutcome.failure true)
      [strOf "docs/pydantic_core-2.0-cp311-cp311-android_24_aarch64.whl"]
      ⟨strOf "pydantic_core-2.0-cp311-cp311-linux_aarch64.whl", strOf "u"⟩ =
    (some ⟨strOf "pydantic_core-2.0-cp311-cp311-android_24_aarch64.whl",
        strOf "../pydantic_core-2.0-cp311-cp311-android_24_aarch64.whl", []⟩,
      [strOf "docs/pydantic_core-2.0-cp311-cp311-android_24_aarch64.whl"], 0) :=
  claim3_mirror_idempotent (fun _ => DlOutcome.success) (fun _ => DlOutcome.failure true) []
    [strOf "docs/pydantic_core-2.0-cp311-cp311-android_24_aarch64.whl"]
    ⟨strOf "pydantic_core-2.0-cp311-cp311-linux_aarch64.whl", strOf "u"⟩
    ⟨strOf "pydantic_core-2.0-cp311-cp311-android_24_aarch64.whl",
      strOf "../pydantic_core-2.0-cp311-cp311-android_24_aarch64.whl", []⟩
    1 (by decide) (by decide)

/-- C7 (counterexample): the grouper itself does not sort: feeding
foo-2.whl before foo-1.whl leaves the group's sequence in input order,
which is not sorted by file name.  Sorting only happens later, in the
renderer. -/
theorem claim7_counterexample :
    get_packages_dict [⟨strOf "foo-2.whl", strOf "u"⟩, ⟨strOf "foo-1.whl", strOf "u"⟩] =
      [(strOf "foo", [⟨strOf "foo-2.whl", strOf "u"⟩, ⟨strOf "foo-1.whl", strOf "u"⟩])] ∧
    ¬ List.Sorted (fun a b : Artifact => a.fileName ≤ b.fileName)
        [⟨strOf "foo-2.whl", strOf "u"⟩, ⟨strOf "foo-1.whl", strOf "u"⟩] :=
  ⟨by decide, by decide⟩

/-- C7 (amended): the grouper leaves each group in insertion order and the
renderer sorts each group by (file name, url) before emitting links: the
sequence a package page renders is a sorted-by-file-name permutation of
the group, and the whole pipeline is a pure function of its inputs, so two
runs on the same input are identical. -/
theorem claim7_sorted_rendering (dl : Str → DlOutcome) (fs : List Str) (name : Str)
    (ws : List Artifact) (pd : List (Str × List Artifact)) (resp : ListingResponse) :
    List.Sorted (fun a b : Artifact => a.fileName ≤ b.fileName) (sortWheels ws) ∧
    (sortWheels ws).Perm ws ∧
    (generate_packages_index dl fs ((name, ws) :: pd)).1 =
      (⟨pathJoin (pathJoin DOCS_DIR (pyLower name)) indexHtml,
          strOf "<h1>Links for " ++ pyLower name ++ strOf "</h1>",
          (processWheels dl fs (sortWheels ws)).1⟩ : PackagePage) ::
        (generate_packages_index dl (processWheels dl fs (sortWheels ws)).2.1 pd).1 ∧
    main_run dl fs resp = main_run dl fs resp := by
  refine ⟨sortWheels_sorted_fileName ws, sortWheels_perm ws, ?_, rfl⟩
  simp [generate_packages_index]

/-- C8: every produced link entry carries the hash metadata computed from
the artifact's ORIGINAL source URL, whether or not the wheel was mirrored:
when the URL contains a sha256 digest marker the fragment consists of the
data-requires-python and data-yanked attributes followed by the URL from
its first hash character, it appears inside the rendered anchor line, and
when the URL carries no marker the fragment is empty. -/
theorem claim8_hash_metadata (dl : Str → DlOutcome) (fs : List Str) (w : Artifact)
    (e : LinkEntry) (fs1 : List Str) (n : Nat)
    (h : resolveLink dl fs w = (some e, fs1, n)) :
    e.hashFragment = mkHashPart w.sourceUrl ∧
    (isSubstrOf shaMarker w.sourceUrl = true →
      e.hashFragment = hashAttrs ++ w.sourceUrl.dropWhile (fun c => c ≠ '#')) ∧
    (isSubstrOf shaMarker w.sourceUrl = false → e.hashFragment = []) ∧
    e.hashFragment <:+: renderLink e := by
  have hfrag : e.hashFragment = mkHashPart w.sourceUrl := by
    by_cases hneed : needs_local_copy w.fileName = true
    · rw [(resolveLink_some_mirror hneed h).1]
    · have hf : needs_local_copy w.fileName = false := by
        revert hneed
        cases needs_local_copy w.fileName <;> simp
      rw [resolveLink_not_needed hf dl fs] at h
      injection h with h1 _
      rw [← Option.some.inj h1]
  refine ⟨hfrag, ?_, ?_, ?_⟩
  · intro hs
    rw [hfrag, mkHashPart, if_pos hs]
  · intro hs
    rw [hfrag, mkHashPart, if_neg (by simp [hs])]
  · exact ⟨strOf "    <a href=\"" ++ e.href ++ strOf "\"",
      strOf ">" ++ e.displayName ++ strOf "</a><br/>",
      by simp [renderLink]⟩

theorem claim8_hash_metadata_witness :
    (⟨strOf "foo-1.0-py3-none-any.whl", strOf "https://x/foo.whl#sha256=abc",
        mkHashPart (strOf "https://x/foo.whl#sha256=abc")⟩ : LinkEntry).hashFragment =
      mkHashPart (strOf "https://x/foo.whl#sha256=abc") ∧
    (isSubstrOf shaMarker (strOf "https://x/foo.whl#sha256=abc") = true →
      (⟨strOf "foo-1.0-py3-none-any.whl", strOf "https://x/foo.whl#sha256=abc",
          mkHashPart (strOf "https://x/foo.whl#sha256=abc")⟩ : LinkEntry).hashFragment =
        hashAttrs ++ (strOf "https://x/foo.whl#sha256=abc").dropWhile (fun c => c ≠ '#')) ∧
    (isSubstrOf shaMarker (strOf "https://x/foo.whl#sha256=abc") = false →
      (⟨strOf "foo-1.0-py3-none-any.whl", strOf "https://x/foo.whl#sha256=abc",
          mkHashPart (strOf "https://x/foo.whl#sha256=abc")⟩ : LinkEntry).hashFragment = []) ∧
    (⟨strOf "foo-1.0-py3-none-any.whl", strOf "https://x/foo.whl#sha256=abc",
        mkHashPart (strOf "https://x/foo.whl#sha256=abc")⟩ : LinkEntry).hashFragment <:+:
      renderLink
        ⟨strOf "foo-1.0-py3-none-any.whl", strOf "https://x/foo.whl#sha256=abc",
          mkHashPart (strOf "https://x/foo.whl#sha256=abc")⟩ :=
  claim8_hash_metadata (fun _ => DlOutcome.success) []
    ⟨strOf "foo-1.0-py3-none-any.whl", strOf "https://x/foo.whl#sha256=abc"⟩
    ⟨strOf "foo-1.0-py3-none-any.whl", strOf "https://x/foo.whl#sha256=abc",
      mkHashPart (strOf "https://x/foo.whl#sha256=abc")⟩
    [] 0 (by decide)

/-- C9: the top-level page emits exactly one link per distinct normalized
package name (the keys of the grouping are distinct and each yields one
link), the link names are exactly the package names in sorted order, and
each link's href is the package's subdirectory name (the lower-cased
package name, which re-normalization leaves unchanged) followed by a
trailing slash. -/
theorem claim9_top_index (infos : List Artifact) :
    (generate_main_pages ((get_packages_dict infos).map Prod.fst)).map Prod.snd =
      List.insertionSort strLe ((get_packages_dict infos).map Prod.fst) ∧
    List.Sorted strLe
      ((generate_main_pages ((get_packages_dict infos).map Prod.fst)).map Prod.snd) ∧
    (∀ l ∈ generate_main_pages ((get_packages_dict infos).map Prod.fst),
      l.1 = pyLower l.2 ++ strOf "/") ∧
    (generate_main_pages ((get_packages_dict infos).map Prod.fst)).length =
      ((get_packages_dict infos).map Prod.fst).length ∧
    ((get_packages_dict infos).map Prod.fst).Nodup := by
  have hkey : ∀ k ∈ (get_packages_dict infos).map Prod.fst,
      pyReplace1 '_' '-' (pyLower k) = k ∧ pyLower k = k := by
    intro k hk
    obtain ⟨g, hg, hfst⟩ := List.mem_map.mp hk
    obtain ⟨f, hf⟩ := get_packages_dict_keys_norm hg
    rw [← hfst, hf]
    exact ⟨renormalize_fix f, pyLower_normalize_fix f⟩
  have hsortmem : ∀ k ∈ List.insertionSort strLe ((get_packages_dict infos).map Prod.fst),
      k ∈ (get_packages_dict infos).map Prod.fst := by
    intro k hk
    exact (List.perm_insertionSort strLe _).mem_iff.mp hk
  have h1 : (generate_main_pages ((get_packages_dict infos).map Prod.fst)).map Prod.snd =
      List.insertionSort strLe ((get_packages_dict infos).map Prod.fst) := by
    simp only [generate_main_pages, List.map_map]
    have : ∀ k ∈ List.insertionSort strLe ((get_packages_dict infos).map Prod.fst),
        (Prod.snd ∘ fun k : Str =>
          (pyReplace1 '_' '-' (pyLower k) ++ strOf "/", pyReplace1 '_' '-' (pyLower k))) k = k := by
      intro k hk
      exact (hkey k (hsortmem k hk)).1
    rw [List.map_congr_left this]
    exact List.map_id' _
  refine ⟨h1, h1 ▸ List.sorted_insertionSort strLe _, ?_, ?_, get_packages_dict_keys_nodup infos⟩
  · intro l hl
    simp only [generate_main_pages, List.mem_map] at hl
    obtain ⟨k, hk, rfl⟩ := hl
    have hk2 := hkey k (hsortmem k hk)
    simp only
    rw [hk2.1, hk2.2]
  · simp only [generate_main_pages]
    rw [List.length_map, List.length_insertionSort]

theorem claim9_top_index_witness :
    (generate_main_pages
        ((get_packages_dict
          [⟨strOf "B-1.whl", strOf "u"⟩, ⟨strOf "a-2.whl", strOf "v"⟩]).map Prod.fst)).map
        Prod.snd =
      List.insertionSort strLe
        ((get_packages_dict
          [⟨strOf "B-1.whl", strOf "u"⟩, ⟨strOf "a-2.whl", strOf "v"⟩]).map Prod.fst) ∧
    List.Sorted strLe
      ((generate_main_pages
        ((get_packages_dict
          [⟨strOf "B-1.whl", strOf "u"⟩, ⟨strOf "a-2.whl", strOf "v"⟩]).map Prod.fst)).map
        Prod.snd) ∧
    ((strOf "a/", strOf "a") : Str × Str).1 = pyLower (strOf "a") ++ strOf "/" ∧
    (generate_main_pages
        ((get_packages_dict
          [⟨strOf "B-1.whl", strOf "u"⟩, ⟨strOf "a-2.whl", strOf "v"⟩]).map Prod.fst)).length =
      ((get_packages_dict
        [⟨strOf "B-1.whl", strOf "u"⟩, ⟨strOf "a-2.whl", strOf "v"⟩]).map Prod.fst).length ∧
    ((get_packages_dict
      [⟨strOf "B-1.whl", strOf "u"⟩, ⟨strOf "a-2.whl", strOf "v"⟩]).map Prod.fst).Nodup :=
  ⟨(claim9_top_index [⟨strOf "B-1.whl", strOf "u"⟩, ⟨strOf "a-2.whl", strOf "v"⟩]).1,
   (claim9_top_index [⟨strOf "B-1.whl", strOf "u"⟩, ⟨strOf "a-2.whl", strOf "v"⟩]).2.1,
   (claim9_top_index [⟨strOf "B-1.whl", strOf "u"⟩, ⟨strOf "a-2.whl", strOf "v"⟩]).2.2.1
     (strOf "a/", strOf "a") (by decide),
   (claim9_top_index [⟨strOf "B-1.whl", strOf "u"⟩, ⟨strOf "a-2.whl", strOf "v"⟩]).2.2.2.1,
   (claim9_top_index [⟨strOf "B-1.whl", strOf "u"⟩, ⟨strOf "a-2.whl", strOf "v"⟩]).2.2.2.2⟩
